import Mathlib

/-!
# DevTaskFlow

A shallow embedding of `devtaskflow-backend/server.js` (the session validation
middleware and the routes behind it) and of the two push handlers of
`devtaskflow-frontend/src/App.js`, followed by theorems about them.

Conventions of the embedding:

* a request is what the session validation middleware (server.js line 59)
  receives: `req.path`, `req.user` as `passport.session()` attached it, and
  `req.body` as `express.json()` parsed it (an object, `{}` when nothing was
  sent);
* the `tasks` table is a list of rows in insertion order together with the
  AUTOINCREMENT counter; a statement either runs or fails as a whole;
* what lies outside the program (a failing store, the OAuth provider, the
  GitHub API, SQLite's numeric reading of a text operand) is an explicit
  `Env` argument of every step;
* `console.log`, SQL statements, `io.emit` and session calls are recorded, in
  program order, in the list of effects of a step.
-/

namespace DevTaskFlow

/-! ## JavaScript values -/

/-- JavaScript values as they occur in JSON bodies, responses and push
payloads. Numbers are integers (a JSON number with a fraction is outside the
model). -/
inductive JsVal where
  | undefined
  | null
  | bool (b : Bool)
  | num (n : Int)
  | str (s : String)
  | arr (xs : List JsVal)
  | obj (kvs : List (String × JsVal))
  deriving Repr, Inhabited

/-- Property read `o[k]` on the key/value list of an object: `undefined` when
the key is absent. -/
def getProp (o : List (String × JsVal)) (k : String) : JsVal :=
  match o.lookup k with
  | some v => v
  | none => .undefined

/-- Property write used by object spread: replaces the value of an existing
key in place, appends a new key at the end. -/
def setProp : List (String × JsVal) → String → JsVal → List (String × JsVal)
  | [], k, v => [(k, v)]
  | (k', v') :: rest, k, v =>
    if k' = k then (k, v) :: rest else (k', v') :: setProp rest k v

namespace JsVal

/-- Property read `v.k`; a primitive has none of the properties read here. -/
def get : JsVal → String → JsVal
  | .obj kvs, k => getProp kvs k
  | _, _ => .undefined

/-- Strict equality `a === b`: primitives of the same type with the same
value. Arrays and objects are equal only to themselves, which two values
parsed from different messages never are. -/
def strictEq : JsVal → JsVal → Bool
  | .undefined, .undefined => true
  | .null, .null => true
  | .bool a, .bool b => a == b
  | .num a, .num b => a == b
  | .str a, .str b => a == b
  | _, _ => false

/-- `xs.includes(v)` (SameValueZero, which is `===` on the values modelled). -/
def includes (xs : List JsVal) (v : JsVal) : Bool :=
  xs.any (fun x => strictEq x v)

mutual
/-- What `JSON.parse(JSON.stringify(v))` gives back: properties whose value is
`undefined` are dropped, `undefined` array elements become `null`. -/
def wire : JsVal → JsVal
  | .arr xs => .arr (wireElems xs)
  | .obj kvs => .obj (wireProps kvs)
  | v => v
/-- Array elements under `wire`. -/
def wireElems : List JsVal → List JsVal
  | [] => []
  | .undefined :: xs => .null :: wireElems xs
  | x :: xs => wire x :: wireElems xs
/-- Object properties under `wire`. -/
def wireProps : List (String × JsVal) → List (String × JsVal)
  | [] => []
  | (_, .undefined) :: kvs => wireProps kvs
  | (k, v) :: kvs => (k, wire v) :: wireProps kvs
end

mutual
/-- String conversion of a template literal, `${v}`. -/
def toStr : JsVal → String
  | .undefined => "undefined"
  | .null => "null"
  | .bool true => "true"
  | .bool false => "false"
  | .num n => toString n
  | .str s => s
  | .arr xs => joinStr xs
  | .obj _ => "[object Object]"
/-- `xs.join(",")`: `null` and `undefined` elements give the empty string. -/
def joinStr : List JsVal → String
  | [] => ""
  | .undefined :: xs => joinTail xs
  | .null :: xs => joinTail xs
  | x :: xs => toStr x ++ joinTail xs
/-- The elements after the first, each behind its separator. -/
def joinTail : List JsVal → String
  | [] => ""
  | .undefined :: xs => "," ++ joinTail xs
  | .null :: xs => "," ++ joinTail xs
  | x :: xs => "," ++ toStr x ++ joinTail xs
end

end JsVal

/-! ## The tasks table (server.js lines 15-21) -/

/-- A row of `tasks`: `id INTEGER PRIMARY KEY AUTOINCREMENT`,
`title TEXT NOT NULL`, `status TEXT DEFAULT 'open'`, `commit_sha TEXT`,
`user_id TEXT`. A nullable TEXT column holds text or NULL (`none`). -/
structure Task where
  id : Nat
  title : String
  status : Option String
  commit_sha : Option String
  user_id : Option String
  deriving DecidableEq, Repr, Inhabited

/-- The table: its rows in insertion order and `seq`, the largest rowid
AUTOINCREMENT has handed out. -/
structure Store where
  rows : List Task
  seq : Nat
  deriving DecidableEq, Repr, Inhabited

/-- A text column read back by `db.all`. -/
def textToJs : Option String → JsVal
  | some s => .str s
  | none => .null

/-- A row as `db.all` returns it (`SELECT *`): `id` is a number. -/
def Task.toJs (t : Task) : JsVal :=
  .obj [("id", .num t.id), ("title", .str t.title), ("status", textToJs t.status),
        ("commit_sha", textToJs t.commit_sha), ("user_id", textToJs t.user_id)]

/-- The id AUTOINCREMENT assigns next: one more than the largest rowid ever
present. -/
def Store.nextId (s : Store) : Nat :=
  (s.rows.map Task.id).foldr max s.seq + 1

/-- `INSERT INTO tasks (title, commit_sha, user_id) VALUES (?, ?, ?)` with the
three placeholders bound: fails on a NULL title (NOT NULL constraint),
otherwise appends the row with the default status and reports `lastID`. -/
def Store.insert (s : Store) (title commit_sha user_id : Option String) :
    Option (Nat × Store) :=
  match title with
  | none => none
  | some t =>
    let id := s.nextId
    some (id, { rows := s.rows ++ [⟨id, t, some "open", commit_sha, user_id⟩], seq := id })

/-- `SELECT * FROM tasks WHERE user_id = ?`. -/
def Store.selectByUser (s : Store) (uid : String) : List Task :=
  s.rows.filter (fun t => t.user_id == some uid)

/-- `UPDATE tasks SET status = ? WHERE id = ? AND user_id = ?`; `rowid` is the
row id the text bound to `id = ?` denotes for SQLite, if any. -/
def Store.updateStatus (s : Store) (status : Option String) (rowid : Option Nat)
    (uid : String) : Store :=
  { s with rows := s.rows.map (fun t =>
      if rowid = some t.id ∧ t.user_id = some uid then { t with status := status } else t) }

/-! ## Parameter binding of node-sqlite3 -/

/-- The value a TEXT column stores for a bound JavaScript value: strings as
they are; an integer in the 32-bit range (bound as INTEGER) and a boolean as
their decimal text; a larger integer (bound as a double) as its decimal text
followed by `.0`, which is what SQLite writes below 10^15 (larger numbers and
fractions are outside the model); `null` and `undefined` as NULL; any other
object as the text node-sqlite3 binds for it. -/
def bindText : JsVal → Option String
  | .str s => some s
  | .num n =>
    if -2147483648 ≤ n ∧ n ≤ 2147483647 then some (toString n)
    else some (toString n ++ ".0")
  | .bool true => some "1"
  | .bool false => some "0"
  | .null => none
  | .undefined => none
  | .arr _ => some "[object Object]"
  | .obj _ => some "[object Object]"

/-- Index of a named-parameter key: a key of decimal digits is a position, any
other key is a name, which a statement written with `?` placeholders does not
have (index 0). node-sqlite3 reads a key with JavaScript's number conversion,
so other spellings of a number (`1.0`, ` 1`, `1e0`) are positions for it as
well; these spellings are treated as names here. -/
def keyIndex (k : String) : Nat :=
  if k.toList ≠ [] ∧ k.toList.all Char.isDigit then
    k.toList.foldl (fun n c => 10 * n + (c.toNat - '0'.toNat)) 0
  else 0

/-- The parameters of `stmt.run(a, b, c, callback)` with their placeholder
positions. The node-sqlite3 API takes bind parameters in three ways:
directly in the function's arguments, as an array (the way the `db.run` call
at lines 145-147 passes them), and as an object for named parameters. Which
way applies is decided by the first argument; with an array or an object the
remaining arguments are not read. -/
def runParams (a b c : JsVal) : List (Nat × JsVal) :=
  match a with
  | .arr xs => xs.enumFrom 1
  | .obj kvs => kvs.map (fun kv => (keyIndex kv.1, kv.2))
  | _ => [(1, a), (2, b), (3, c)]

/-- The value placeholder `i` ends up with: the last parameter bound at `i`,
NULL when none was. -/
def slot (ps : List (Nat × JsVal)) (i : Nat) : Option String :=
  match ps.reverse.lookup i with
  | some v => bindText v
  | none => none

/-- Binding for a statement with three placeholders: `undefined` parameters
are skipped, a parameter at a position outside 1..3 is a bind error
(SQLITE_RANGE). -/
def bind3 (ps : List (Nat × JsVal)) :
    Option (Option String × Option String × Option String) :=
  let bound := ps.filter (fun p => match p.2 with | .undefined => false | _ => true)
  if bound.any (fun p => p.1 == 0 || decide (3 < p.1)) then none
  else some (slot bound 1, slot bound 2, slot bound 3)

/-- The statement of lines 110-115 run as `stmt.run(title, commit_sha, uid, cb)`. -/
def Store.runInsert (s : Store) (title commit_sha uid : JsVal) : Option (Nat × Store) :=
  match bind3 (runParams title commit_sha uid) with
  | none => none
  | some (t, c, u) => s.insert t c u

/-! ## Requests, responses, effects -/

/-- The identity passport attaches to a request (`req.user`): the GitHub
profile, whose `id` is text, with the access token stored on it (line 31). -/
structure User where
  id : String
  username : String
  accessToken : String
  deriving DecidableEq, Repr, Inhabited

/-- `res.json(req.user)`. -/
def User.toJs (u : User) : JsVal :=
  .obj [("id", .str u.id), ("username", .str u.username), ("accessToken", .str u.accessToken)]

/-- The verb of a request. An OPTIONS request is answered by the CORS
middleware of line 39 and does not get as far as the code modelled here. -/
inductive Method where
  | GET | HEAD | POST | PATCH | PUT | DELETE
  deriving DecidableEq, Repr, Inhabited

/-- The verb as Express prints it. -/
def Method.name : Method → String
  | .GET => "GET" | .HEAD => "HEAD" | .POST => "POST" | .PATCH => "PATCH"
  | .PUT => "PUT" | .DELETE => "DELETE"

/-- The verb routes are looked up with: Express serves HEAD with the GET
handler of the path. -/
def Method.routed : Method → Method
  | .HEAD => .GET
  | m => m

/-- A request as the session validation middleware receives it: `body` is the
key/value list of the object `express.json()` produced. -/
structure Request where
  method : Method
  path : String
  user : Option User
  body : List (String × JsVal)
  deriving Repr, Inhabited

/-- What a response carries. -/
inductive Body where
  | json (v : JsVal)
  | text (s : String)
  | redirect (url : String)
  | empty
  deriving Repr, Inhabited

/-- Status code and body of a response. -/
structure Response where
  status : Nat
  body : Body
  deriving Repr, Inhabited

/-- What a step does besides answering, in program order. A `console` entry
carries the leading text of the `console.log` or `console.error` call. -/
inductive Effect where
  | touch
  | console (msg : String)
  | sql (statement : String)
  | emit (event : String) (payload : JsVal)
  | http (url : String)
  | login (u : User)
  | logout
  | destroySession
  | clearCookie (name : String)
  | mkdir (dir : String)
  | writeFile (file : String)
  | readFile (file : String)
  deriving Repr, Inhabited

/-- The files under `workspaces/`: whether the directory exists, and each file
name with the value `JSON.parse` reads back from it. -/
structure Workspaces where
  dir : Bool
  files : List (String × JsVal)
  deriving Repr, Inhabited

/-- What the server keeps between requests. -/
structure State where
  store : Store
  workspaces : Workspaces
  deriving Repr, Inhabited

/-- A commit as the GitHub API returns it (the fields the server reads). -/
structure GhCommit where
  sha : String
  message : String
  date : String
  deriving DecidableEq, Repr, Inhabited

/-- A repository of the caller with the answer to its commits request (`none`:
that request failed). -/
structure GhRepo where
  name : String
  full_name : String
  commits : Option (List GhCommit)
  deriving DecidableEq, Repr, Inhabited

/-- What lies outside the program during one request. -/
structure Env where
  /-- The store reports an error for the statement of this request. -/
  storeFails : Bool
  /-- The row id a text operand denotes when SQLite compares it with the
  INTEGER column `id`. -/
  rowidOfText : String → Option Nat
  /-- The identity the OAuth provider confirms on the callback, if it does. -/
  oauth : Option User
  /-- The caller's repositories (`none`: the repositories request failed). -/
  github : Option (List GhRepo)
  /-- The value of `process.env.FRONTEND_URL`. -/
  frontendUrl : String

/-- The result of one request. -/
structure Outcome where
  response : Response
  state : State
  effects : List Effect
  deriving Repr, Inhabited

/-- The events a step broadcasts with `io.emit`, in order. -/
def emitted : List Effect → List (String × JsVal)
  | [] => []
  | .emit e p :: fx => (e, p) :: emitted fx
  | _ :: fx => emitted fx

/-- `{ error: msg }`. -/
def errorBody (msg : String) : Body :=
  .json (.obj [("error", .str msg)])

/-- An exception thrown inside a handler: Express answers 500 with the error
text; the state is as the handler left it. -/
def thrown (st : State) (fx : List Effect) (msg : String) : Outcome :=
  ⟨⟨500, .text msg⟩, st, fx⟩

/-! ## Names in scope in server.js -/

/-- The bindings server.js declares at top level (lines 2-14 and 234). -/
def moduleScope : List String :=
  ["express", "session", "passport", "GitHubStrategy", "sqlite3", "cors", "axios",
   "app", "server", "io", "db", "PORT"]

/-- The names Node provides to every module. -/
def nodeScope : List String :=
  ["require", "module", "exports", "__dirname", "__filename", "process", "console",
   "JSON", "Promise"]

/-- Whether a free identifier of a handler resolves in scope `sc`. -/
def inScope (sc : List String) (name : String) : Bool :=
  sc.contains name || nodeScope.contains name

/-! ## Routing -/

/-- `s.startsWith(p)`. -/
def startsWith (s p : String) : Bool :=
  p.toList.isPrefixOf s.toList

/-- The segments of a path between its slashes. -/
def splitSlash : List Char → List String
  | [] => [""]
  | c :: cs =>
    match splitSlash cs with
    | [] => [""]
    | seg :: rest =>
      if c = '/' then "" :: seg :: rest else String.mk (c :: seg.toList) :: rest

/-- The routes server.js registers. -/
inductive Route where
  | authGithub
  | authCallback
  | authUser
  | authLogout
  | listTasks
  | createTask
  | updateStatus (id : String)
  | commits
  | saveWorkspace
  | restoreWorkspace (taskId : String)
  | notFound
  deriving DecidableEq, Repr, Inhabited

/-- A segment in lower case: Express compares the fixed parts of a route
without regard to letter case. -/
def lower (s : String) : String :=
  String.mk (s.toList.map Char.toLower)

/-- Express accepts one trailing slash behind a route. -/
def dropTrailing : List String → List String
  | [] => []
  | [s] => [s]
  | [s, t] => if t = "" ∧ s ≠ "" then [s] else [s, t]
  | s :: t :: rest => s :: dropTrailing (t :: rest)

/-- The route a verb and path select (Express defaults: fixed parts in any
letter case, one optional trailing slash); a `:name` segment takes one
non-empty segment, handed over as written. Express percent-decodes the
segment before it hands it over and answers 400 itself on a malformed escape;
paths are taken without percent escapes here. -/
def route (m : Method) (path : String) : Route :=
  let segs := dropTrailing (splitSlash path.toList)
  match m.routed, segs.map lower, segs with
  | .GET, ["", "auth", "github"], _ => .authGithub
  | .GET, ["", "auth", "github", "callback"], _ => .authCallback
  | .GET, ["", "auth", "user"], _ => .authUser
  | .POST, ["", "auth", "logout"], _ => .authLogout
  | .GET, ["", "api", "tasks"], _ => .listTasks
  | .POST, ["", "api", "tasks"], _ => .createTask
  | .PATCH, ["", "api", "tasks", _, "status"], [_, _, _, id, _] =>
    if id = "" then .notFound else .updateStatus id
  | .GET, ["", "api", "github", "commits"], _ => .commits
  | .POST, ["", "api", "workspace"], _ => .saveWorkspace
  | .GET, ["", "api", "workspace", _], [_, _, _, taskId] =>
    if taskId = "" then .notFound else .restoreWorkspace taskId
  | _, _, _ => .notFound

/-! ## Route handlers (server.js lines 66-232) -/

/-- `validStatuses` of line 138. -/
def validStatuses : List JsVal :=
  [.str "open", .str "in-progress", .str "closed"]

/-- Reading a property of `req.user` when no identity is attached. -/
def noUser (st : State) (prop : String) : Outcome :=
  thrown st [] ("TypeError: Cannot read properties of undefined (reading " ++ prop ++ ")")

/-- `GET /auth/github`: passport sends the browser to the provider. -/
def authGithub (st : State) : Outcome :=
  ⟨⟨302, .redirect "https://github.com/login/oauth/authorize"⟩, st, []⟩

/-- `GET /auth/github/callback` (lines 69-75). -/
def authCallback (env : Env) (st : State) : Outcome :=
  match env.oauth with
  | none => ⟨⟨302, .redirect "/login"⟩, st, []⟩
  | some u =>
    ⟨⟨302, .redirect env.frontendUrl⟩, st, [.login u, .console "User authenticated:"]⟩

/-- `GET /auth/user` (lines 77-80). -/
def authUser (st : State) (req : Request) : Outcome :=
  match req.user with
  | some u => ⟨⟨200, .json u.toJs⟩, st, [.console "Fetching user session:"]⟩
  | none => ⟨⟨401, errorBody "Unauthorized"⟩, st, [.console "Fetching user session:"]⟩

/-- `POST /auth/logout` (lines 82-89). -/
def authLogout (st : State) (req : Request) : Outcome :=
  match req.user with
  | none => noUser st "username"
  | some _ =>
    ⟨⟨204, .empty⟩, st,
      [.console "User logging out:", .logout, .destroySession, .clearCookie "connect.sid"]⟩

/-- `GET /api/tasks` (lines 92-104). -/
def getTasks (env : Env) (st : State) (req : Request) : Outcome :=
  match req.user with
  | none => noUser st "id"
  | some u =>
    let fx := [Effect.console "Fetching tasks for user:",
               .sql "SELECT * FROM tasks WHERE user_id = ?"]
    if env.storeFails then
      ⟨⟨500, errorBody "Failed to fetch tasks"⟩, st, fx ++ [.console "Error fetching tasks:"]⟩
    else
      let rows := st.store.selectByUser u.id
      ⟨⟨200, .json (.arr (rows.map Task.toJs))⟩, st, fx ++ [.console "Tasks fetched:"]⟩

/-- `POST /api/tasks` (lines 106-132). -/
def postTasks (env : Env) (st : State) (req : Request) : Outcome :=
  let title := getProp req.body "title"
  let commit_sha := getProp req.body "commit_sha"
  match req.user with
  | none => noUser st "id"
  | some u =>
    let fx := [Effect.console "Creating task:",
               .sql "INSERT INTO tasks (title, commit_sha, user_id) VALUES (?, ?, ?)"]
    match (if env.storeFails then none
           else st.store.runInsert title commit_sha (.str u.id)) with
    | none =>
      ⟨⟨500, errorBody "Failed to create task"⟩, st, fx ++ [.console "Error creating task:"]⟩
    | some (lastID, store) =>
      let newTask := JsVal.obj [("id", .num lastID), ("title", title),
        ("commit_sha", commit_sha), ("status", .str "open"), ("user_id", .str u.id)]
      ⟨⟨201, .json newTask⟩, { st with store := store },
        fx ++ [.console "Task created:", .emit "task_update" newTask]⟩

/-- `PATCH /api/tasks/:id/status` (lines 134-165); `id` is `req.params.id`. -/
def patchStatus (env : Env) (st : State) (req : Request) (id : String) : Outcome :=
  let status := getProp req.body "status"
  match req.user with
  | none => noUser st "id"
  | some u =>
    let fx := [Effect.console "Updating task status:"]
    if !JsVal.includes validStatuses status then
      ⟨⟨400, errorBody "Invalid status"⟩, st, fx ++ [.console "Invalid status:"]⟩
    else
      let fx := fx ++ [.sql "UPDATE tasks SET status = ? WHERE id = ? AND user_id = ?"]
      if env.storeFails then
        ⟨⟨500, errorBody "Failed to update task status"⟩, st,
          fx ++ [.console "Error updating task status:"]⟩
      else
        let updatedTask := JsVal.obj [("id", .str id), ("status", status),
          ("title", getProp req.body "title"), ("commit_sha", getProp req.body "commit_sha")]
        ⟨⟨200, .json updatedTask⟩,
          { st with store := st.store.updateStatus (bindText status) (env.rowidOfText id) u.id },
          fx ++ [.console "Task status updated:", .emit "task_status_update" updatedTask]⟩

/-- The entries one repository contributes (lines 185-190). -/
def repoCommits (r : GhRepo) : Option (List JsVal) :=
  r.commits.map (fun cs => cs.map (fun c =>
    JsVal.obj [("sha", .str c.sha), ("message", .str c.message), ("repo", .str r.name),
               ("date", .str c.date)]))

/-- `GET /api/github/commits` (lines 168-200). -/
def getCommits (env : Env) (st : State) (req : Request) : Outcome :=
  match req.user with
  | none => noUser st "username"
  | some _ =>
    let fx := [Effect.console "Fetching GitHub commits for user:",
               .http "https://api.github.com/user/repos"]
    match env.github.bind (fun repos => repos.mapM repoCommits) with
    | none =>
      ⟨⟨500, errorBody "Failed to fetch commits"⟩, st,
        fx ++ [.console "Error fetching GitHub commits:"]⟩
    | some commits =>
      ⟨⟨200, .json (.arr commits.flatten)⟩, st, fx ++ [.console "GitHub commits fetched:"]⟩

/-- The file of a task under `workspaces/`. -/
def workspaceFile (taskId : String) : String :=
  "workspace_" ++ taskId ++ ".json"

/-- `fs.writeFileSync`: the file is created or overwritten as a whole. -/
def writeFile : List (String × JsVal) → String → JsVal → List (String × JsVal)
  | [], f, v => [(f, v)]
  | (g, w) :: rest, f, v => if g = f then (f, v) :: rest else (g, w) :: writeFile rest f v

/-- `POST /api/workspace` (lines 211-222) in a module whose top-level names
are `sc`: `path` is the first free identifier evaluated, `fs` the second. -/
def postWorkspace (sc : List String) (st : State) (req : Request) : Outcome :=
  let task_id := getProp req.body "task_id"
  let open_files := getProp req.body "open_files"
  if !inScope sc "path" then thrown st [] "ReferenceError: path is not defined"
  else if !inScope sc "fs" then thrown st [] "ReferenceError: fs is not defined"
  else
    let file := workspaceFile task_id.toStr
    let fx := (if st.workspaces.dir then [] else [Effect.mkdir "workspaces"]) ++
      [.writeFile file]
    ⟨⟨201, .json (.obj [("message", .str "Workspace saved")])⟩,
      { st with workspaces :=
          { dir := true,
            files := writeFile st.workspaces.files file
              (JsVal.wire (.obj [("open_files", open_files)])) } },
      fx⟩

/-- `GET /api/workspace/:taskId` (lines 224-232) in a module whose top-level
names are `sc`. -/
def getWorkspace (sc : List String) (st : State) (taskId : String) : Outcome :=
  if !inScope sc "path" then thrown st [] "ReferenceError: path is not defined"
  else if !inScope sc "fs" then thrown st [] "ReferenceError: fs is not defined"
  else
    match st.workspaces.files.lookup (workspaceFile taskId) with
    | none => ⟨⟨404, errorBody "Workspace not found"⟩, st, []⟩
    | some workspaceState =>
      ⟨⟨200, .json workspaceState⟩, st, [.readFile (workspaceFile taskId)]⟩

/-! ## The application -/

/-- The routes behind the session validation middleware; a request no route
takes gets Express's 404. -/
def routes (sc : List String) (env : Env) (st : State) (req : Request) : Outcome :=
  match route req.method req.path with
  | .authGithub => authGithub st
  | .authCallback => authCallback env st
  | .authUser => authUser st req
  | .authLogout => authLogout st req
  | .listTasks => getTasks env st req
  | .createTask => postTasks env st req
  | .updateStatus id => patchStatus env st req id
  | .commits => getCommits env st req
  | .saveWorkspace => postWorkspace sc st req
  | .restoreWorkspace taskId => getWorkspace sc st taskId
  | .notFound => ⟨⟨404, .text ("Cannot " ++ req.method.name ++ " " ++ req.path)⟩, st, []⟩

/-- The session validation middleware (lines 59-64) followed by the routes, in
a module whose top-level names are `sc`. -/
def handleIn (sc : List String) (env : Env) (st : State) (req : Request) : Outcome :=
  if startsWith req.path "/auth" || req.path == "/" then routes sc env st req
  else
    match req.user with
    | none => ⟨⟨401, errorBody "Unauthorized"⟩, st, []⟩
    | some _ =>
      let out := routes sc env st req
      { out with effects := .touch :: out.effects }

/-- One request served by server.js. -/
def handle (env : Env) (st : State) (req : Request) : Outcome :=
  handleIn moduleScope env st req

/-- A sequence of requests served one after the other, each with its
environment; the state after the last one. -/
def run (st : State) : List (Env × Request) → State
  | [] => st
  | (env, req) :: rest => run (handle env st req).state rest

/-- The state of a fresh installation: an empty table, no workspace files. -/
def State.init : State :=
  ⟨⟨[], 0⟩, ⟨false, []⟩⟩

/-! ## The client's push handlers (App.js lines 59-70) -/

/-- The handler of `task_update`: `[...prevTasks, newTask]`. -/
def onTaskUpdate (prevTasks : List JsVal) (newTask : JsVal) : List JsVal :=
  prevTasks ++ [newTask]

/-- The object `{ ...task, status: status }`; the tasks of the list are
objects. -/
def withStatus (task : JsVal) (status : JsVal) : JsVal :=
  match task with
  | .obj kvs => .obj (setProp kvs "status" status)
  | _ => .obj [("status", status)]

/-- The handler of `task_status_update` (lines 65-70). -/
def onTaskStatusUpdate (prevTasks : List JsVal) (updatedTask : JsVal) : List JsVal :=
  prevTasks.map (fun task =>
    if JsVal.strictEq (task.get "id") (updatedTask.get "id")
    then withStatus task (updatedTask.get "status") else task)

/-- The task list the client holds after `GET /api/tasks` answered with
`body`: the parsed JSON array (`res.data`). -/
def clientTasks (body : Body) : List JsVal :=
  match body with
  | .json v =>
    match JsVal.wire v with
    | .arr xs => xs
    | _ => []
  | _ => []

/-! ## Properties of runs, and sample data -/

/-- The part of the table invariant the code keeps: every status is one of
the three values and no two rows share an id. -/
def Store.WellFormed (s : Store) : Prop :=
  (∀ t ∈ s.rows, t.status = some "open" ∨ t.status = some "in-progress" ∨
    t.status = some "closed") ∧
  (s.rows.map Task.id).Nodup

/-- A sample environment: the store works, the provider and the GitHub API do
not answer, a text operand denotes a row id when it is written in decimal
digits. -/
def sampleEnv : Env :=
  ⟨false, fun s => if s.toList.all Char.isDigit then some (keyIndex s) else none, none, none,
    "http://localhost:3000"⟩

/-- Two identities. -/
def alice : User := ⟨"A", "alice", "token-a"⟩

/-- The second identity. -/
def bob : User := ⟨"B", "bob", "token-b"⟩

/-- A store with one open task of each identity. -/
def twoTasks : State :=
  ⟨⟨[⟨1, "Fix bug", some "open", some "abc123", some "A"⟩,
     ⟨2, "Write docs", some "open", none, some "B"⟩], 2⟩, ⟨false, []⟩⟩

/-- Alice lists her tasks. -/
def aliceLists : Request := ⟨.GET, "/api/tasks", some alice, []⟩

/-- Bob lists his tasks. -/
def bobLists : Request := ⟨.GET, "/api/tasks", some bob, []⟩

/-- Alice creates the task of the spec's scenario. -/
def aliceCreates : Request :=
  ⟨.POST, "/api/tasks", some alice, [("title", .str "Fix bug"), ("commit_sha", .str "abc123")]⟩

/-- Alice creates a task with a title she does not have yet. -/
def aliceCreatesNew : Request :=
  ⟨.POST, "/api/tasks", some alice, [("title", .str "Add tests")]⟩

/-- Alice closes task 1, as the client sends it (line 102 of App.js). -/
def aliceCloses : Request :=
  ⟨.PATCH, "/api/tasks/1/status", some alice, [("status", .str "closed")]⟩

/-- Alice creates a task whose title is a JSON array of three strings. -/
def aliceCreatesArrayTitle : Request :=
  ⟨.POST, "/api/tasks", some alice, [("title", .arr [.str "x", .str "y", .str "B"])]⟩

/-- Alice saves a workspace snapshot for task 1. -/
def aliceSaves : Request :=
  ⟨.POST, "/api/workspace", some alice,
    [("task_id", .str "1"), ("open_files", .arr [.str "/src/a.js", .str "/src/b.js"])]⟩

/-- Alice restores the snapshot of task 1. -/
def aliceRestores : Request := ⟨.GET, "/api/workspace/1", some alice, []⟩

/-- The id a create reports in its response body. -/
def reportedId (b : Body) : Option Nat :=
  match b with
  | .json p =>
    match p.get "id" with
    | .num n => some n.toNat
    | _ => none
  | _ => none

/-- The creations of one request: the id reported by a create answered 201,
with the id of the caller. -/
def createdBy (req : Request) (out : Outcome) : List (Nat × String) :=
  match route req.method req.path, req.user, reportedId out.response.body with
  | .createTask, some u, some id => if out.response.status = 201 then [(id, u.id)] else []
  | _, _, _ => []

/-- The creations along a run, oldest first. -/
def created (st : State) : List (Env × Request) → List (Nat × String)
  | [] => []
  | (env, req) :: rest =>
    createdBy req (handle env st req) ++ created (handle env st req).state rest

/-- The title of the request is not an array and not an object. -/
def scalarTitle (req : Request) : Prop :=
  (∀ xs, getProp req.body "title" ≠ .arr xs) ∧ (∀ kvs, getProp req.body "title" ≠ .obj kvs)

/-! ## Lemmas -/

theorem strictEq_str_left (s : String) (v : JsVal) :
    JsVal.strictEq (.str s) v = true ↔ v = .str s := by
  cases v with
  | str t =>
    show (s == t) = true ↔ JsVal.str t = JsVal.str s
    rw [beq_iff_eq, JsVal.str.injEq]
    exact eq_comm
  | _ => constructor <;> intro h <;> cases h

theorem includes_validStatuses (v : JsVal) :
    JsVal.includes validStatuses v = true ↔
      v = .str "open" ∨ v = .str "in-progress" ∨ v = .str "closed" := by
  unfold JsVal.includes validStatuses
  rw [List.any_cons, List.any_cons, List.any_cons, List.any_nil, Bool.or_false,
    Bool.or_eq_true, Bool.or_eq_true, strictEq_str_left, strictEq_str_left, strictEq_str_left]

/-- With an identity attached the middleware lets the request through: the
step is the route's, behind one `touch` unless the path is exempt. -/
theorem handleIn_of_user (sc : List String) (env : Env) (st : State) (req : Request)
    (u : User) (hu : req.user = some u) :
    (handleIn sc env st req).response = (routes sc env st req).response ∧
    (handleIn sc env st req).state = (routes sc env st req).state ∧
    emitted (handleIn sc env st req).effects = emitted (routes sc env st req).effects := by
  unfold handleIn
  split
  · exact ⟨rfl, rfl, rfl⟩
  · simp [hu, emitted]

theorem handle_of_user (env : Env) (st : State) (req : Request) (u : User)
    (hu : req.user = some u) :
    (handle env st req).response = (routes moduleScope env st req).response ∧
    (handle env st req).state = (routes moduleScope env st req).state ∧
    emitted (handle env st req).effects = emitted (routes moduleScope env st req).effects :=
  handleIn_of_user moduleScope env st req u hu

theorem emitted_append (xs ys : List Effect) :
    emitted (xs ++ ys) = emitted xs ++ emitted ys := by
  induction xs with
  | nil => rfl
  | cons x xs ih => cases x <;> simp [emitted, ih]

theorem emitted_touch (out : Outcome) :
    emitted ({ out with effects := .touch :: out.effects } : Outcome).effects
      = emitted out.effects := rfl

/-- The response and the broadcasts of a step are those of the route. -/
theorem handle_cases (sc : List String) (env : Env) (st : State) (req : Request) :
    (handleIn sc env st req = ⟨⟨401, errorBody "Unauthorized"⟩, st, []⟩) ∨
    ((handleIn sc env st req).response = (routes sc env st req).response ∧
     (handleIn sc env st req).state = (routes sc env st req).state ∧
     emitted (handleIn sc env st req).effects = emitted (routes sc env st req).effects) := by
  unfold handleIn
  split
  · exact Or.inr ⟨rfl, rfl, rfl⟩
  · cases req.user with
    | none => exact Or.inl rfl
    | some u => exact Or.inr ⟨rfl, rfl, rfl⟩

/-- What each route answers and broadcasts. -/
theorem routes_broadcast (sc : List String) (env : Env) (st : State) (req : Request) :
    (route req.method req.path = .createTask →
      (routes sc env st req).response.status = 201 →
      ∃ p, (routes sc env st req).response.body = .json p ∧
        emitted (routes sc env st req).effects = [("task_update", p)]) ∧
    (∀ id, route req.method req.path = .updateStatus id →
      (routes sc env st req).response.status = 200 →
      ∃ p, (routes sc env st req).response.body = .json p ∧
        emitted (routes sc env st req).effects = [("task_status_update", p)]) ∧
    ((routes sc env st req).response.status = 400 ∨
      (routes sc env st req).response.status = 401 ∨
      (routes sc env st req).response.status = 500 →
      emitted (routes sc env st req).effects = []) := by
  unfold routes
  cases hr : route req.method req.path with
  | authGithub => simp [authGithub, emitted]
  | authCallback =>
    simp only [authCallback]
    cases h : env.oauth <;> simp [h, emitted]
  | authUser =>
    simp only [authUser]
    cases req.user <;> simp [emitted]
  | authLogout =>
    simp only [authLogout]
    cases req.user <;> simp [emitted, noUser, thrown]
  | listTasks =>
    simp only [getTasks]
    cases req.user with
    | none => simp [emitted, noUser, thrown]
    | some u => cases h : env.storeFails <;> simp [h, emitted]
  | createTask =>
    simp only [postTasks]
    cases req.user with
    | none => simp [emitted, noUser, thrown]
    | some u =>
      cases hf : env.storeFails with
      | true => simp [hf, emitted]
      | false =>
        rcases h : st.store.runInsert (getProp req.body "title") (getProp req.body "commit_sha")
          (.str u.id) with _ | ⟨lastID, store⟩ <;> simp [h, emitted]
  | updateStatus id =>
    simp only [patchStatus]
    cases req.user with
    | none => simp [emitted, noUser, thrown]
    | some u =>
      cases h : JsVal.includes validStatuses (getProp req.body "status") with
      | false => simp [h, emitted]
      | true => cases h' : env.storeFails <;> simp [h, h', emitted]
  | commits =>
    simp only [getCommits]
    cases req.user with
    | none => simp [emitted, noUser, thrown]
    | some u =>
      cases h : env.github.bind (fun repos => repos.mapM repoCommits) <;> simp [h, emitted]
  | saveWorkspace =>
    simp only [postWorkspace]
    cases h1 : inScope sc "path" <;> cases h2 : inScope sc "fs" <;>
      cases h3 : st.workspaces.dir <;> simp [h1, h2, h3, emitted, thrown]
  | restoreWorkspace taskId =>
    simp only [getWorkspace]
    cases h1 : inScope sc "path" <;> cases h2 : inScope sc "fs" <;>
      cases h3 : st.workspaces.files.lookup (workspaceFile taskId) <;>
      simp [h1, h2, h3, emitted, thrown]
  | notFound => simp [emitted]

/-- A title that is a string is bound positionally: the row gets the title,
the bound commit and the caller's id. -/
theorem runInsert_str (s : Store) (title uid : String) (c : JsVal) :
    s.runInsert (.str title) c (.str uid) = s.insert (some title) (bindText c) (some uid) := by
  cases c <;> rfl

/-- An absent or null title leaves the first placeholder NULL and the insert
fails. -/
theorem runInsert_no_title (s : Store) (uid : String) (t c : JsVal)
    (ht : t = .undefined ∨ t = .null) : s.runInsert t c (.str uid) = none := by
  rcases ht with rfl | rfl <;> cases c <;> rfl

/-- A title that is neither an array nor an object is bound positionally: the
third placeholder gets the caller's id. -/
theorem runInsert_positional (s : Store) (t c : JsVal) (uid : String)
    (harr : ∀ xs, t ≠ .arr xs) (hobj : ∀ kvs, t ≠ .obj kvs) :
    s.runInsert t c (.str uid) = s.insert (bindText t) (bindText c) (some uid) := by
  cases t with
  | arr xs => exact absurd rfl (harr xs)
  | obj kvs => exact absurd rfl (hobj kvs)
  | bool b => cases b <;> cases c <;> rfl
  | _ => cases c <;> rfl

theorem nextId_gt (s : Store) (t : Task) (ht : t ∈ s.rows) : t.id < s.nextId := by
  unfold Store.nextId
  have : ∀ (l : List Nat) (a b : Nat), a ∈ l → a ≤ l.foldr max b := by
    intro l a b
    induction l with
    | nil => intro h; cases h
    | cons x xs ih =>
      intro h
      rcases List.mem_cons.mp h with rfl | h
      · exact le_max_left _ _
      · exact le_trans (ih h) (le_max_right _ _)
  exact Nat.lt_succ_of_le (this _ _ _ (List.mem_map_of_mem Task.id ht))

/-! ### The store along a run -/

/-- What one request can do to the table: nothing, one insert, or one status
update with a valid status. -/
theorem handle_store (sc : List String) (env : Env) (st : State) (req : Request) :
    (handleIn sc env st req).state.store = st.store ∨
    (∃ t c u id, st.store.insert t c u = some (id, (handleIn sc env st req).state.store)) ∨
    (∃ s rowid uid, (s = "open" ∨ s = "in-progress" ∨ s = "closed") ∧
      (handleIn sc env st req).state.store = st.store.updateStatus (some s) rowid uid) := by
  rcases handle_cases sc env st req with h | ⟨-, h2, -⟩
  · rw [h]
    exact Or.inl rfl
  · rw [h2]
    unfold routes
    cases hr : route req.method req.path with
    | authGithub => exact Or.inl rfl
    | authCallback =>
      simp only [authCallback]
      cases h : env.oauth <;> exact Or.inl rfl
    | authUser =>
      simp only [authUser]
      cases h : req.user <;> exact Or.inl rfl
    | authLogout =>
      simp only [authLogout]
      cases h : req.user <;> exact Or.inl rfl
    | listTasks =>
      simp only [getTasks]
      cases h : req.user with
      | none => exact Or.inl rfl
      | some u => cases h' : env.storeFails <;> exact Or.inl rfl
    | createTask =>
      simp only [postTasks]
      cases h : req.user with
      | none => exact Or.inl rfl
      | some u =>
        cases hf : env.storeFails with
        | true => exact Or.inl rfl
        | false =>
          simp only [Bool.false_eq_true, if_false]
          rcases h : st.store.runInsert (getProp req.body "title")
            (getProp req.body "commit_sha") (.str u.id) with _ | ⟨lastID, store⟩
          · exact Or.inl rfl
          · refine Or.inr (Or.inl ?_)
            unfold Store.runInsert at h
            rcases hb : bind3 (runParams (getProp req.body "title")
              (getProp req.body "commit_sha") (.str u.id)) with _ | ⟨t, c, w⟩
            · rw [hb] at h
              cases h
            · rw [hb] at h
              exact ⟨t, c, w, lastID, h⟩
    | updateStatus id =>
      simp only [patchStatus]
      cases h : req.user with
      | none => exact Or.inl rfl
      | some u =>
        cases hi : JsVal.includes validStatuses (getProp req.body "status") with
        | false => exact Or.inl rfl
        | true =>
          cases hf : env.storeFails with
          | true => exact Or.inl rfl
          | false =>
            refine Or.inr (Or.inr ?_)
            rcases (includes_validStatuses _).mp hi with hs | hs | hs
            · exact ⟨"open", env.rowidOfText id, u.id, Or.inl rfl, by simp [hs, bindText]⟩
            · exact ⟨"in-progress", env.rowidOfText id, u.id, Or.inr (Or.inl rfl),
                by simp [hs, bindText]⟩
            · exact ⟨"closed", env.rowidOfText id, u.id, Or.inr (Or.inr rfl),
                by simp [hs, bindText]⟩
    | commits =>
      simp only [getCommits]
      cases h : req.user with
      | none => exact Or.inl rfl
      | some u =>
        cases h : env.github.bind (fun repos => repos.mapM repoCommits) <;> exact Or.inl rfl
    | saveWorkspace =>
      simp only [postWorkspace]
      cases h1 : inScope sc "path" <;> cases h2 : inScope sc "fs" <;> exact Or.inl rfl
    | restoreWorkspace taskId =>
      simp only [getWorkspace]
      cases h1 : inScope sc "path" <;> cases h2 : inScope sc "fs" <;>
        cases h3 : st.workspaces.files.lookup (workspaceFile taskId) <;> exact Or.inl rfl
    | notFound => exact Or.inl rfl

theorem wellFormed_insert (s s' : Store) (t : Option String) (c u : Option String) (id : Nat)
    (h : s.insert t c u = some (id, s')) (hs : s.WellFormed) : s'.WellFormed := by
  unfold Store.insert at h
  cases t with
  | none => cases h
  | some title =>
    simp only [Option.some.injEq, Prod.mk.injEq] at h
    obtain ⟨-, rfl⟩ := h
    constructor
    · intro r hr
      rcases List.mem_append.mp hr with hr | hr
      · exact hs.1 r hr
      · rw [List.mem_singleton] at hr
        subst hr
        exact Or.inl rfl
    · show ((s.rows ++ [_]).map Task.id).Nodup
      rw [List.map_append, List.nodup_append]
      refine ⟨hs.2, List.nodup_singleton _, ?_⟩
      intro a ha hb
      rw [List.map_singleton, List.mem_singleton] at hb
      obtain ⟨r, hr, rfl⟩ := List.mem_map.mp ha
      have := nextId_gt s r hr
      simp only at hb
      omega

theorem wellFormed_updateStatus (s : Store) (v : String) (rowid : Option Nat) (uid : String)
    (hv : v = "open" ∨ v = "in-progress" ∨ v = "closed") (hs : s.WellFormed) :
    (s.updateStatus (some v) rowid uid).WellFormed := by
  constructor
  · intro r hr
    simp only [Store.updateStatus, List.mem_map] at hr
    obtain ⟨t, ht, rfl⟩ := hr
    split
    · rcases hv with rfl | rfl | rfl
      · exact Or.inl rfl
      · exact Or.inr (Or.inl rfl)
      · exact Or.inr (Or.inr rfl)
    · exact hs.1 t ht
  · have : (s.updateStatus (some v) rowid uid).rows.map Task.id = s.rows.map Task.id := by
      simp only [Store.updateStatus, List.map_map]
      apply List.map_congr_left
      intro t _
      simp only [Function.comp]
      split <;> rfl
    rw [this]
    exact hs.2

theorem wellFormed_handle (env : Env) (st : State) (req : Request)
    (hs : st.store.WellFormed) : (handle env st req).state.store.WellFormed := by
  unfold handle
  rcases handle_store moduleScope env st req with h | ⟨t, c, u, id, h⟩ | ⟨s, rowid, uid, hv, h⟩
  · rw [h]
    exact hs
  · exact wellFormed_insert _ _ t c u id h hs
  · rw [h]
    exact wellFormed_updateStatus _ _ _ _ hv hs

/-- In every state reached from the empty store, statuses are valid and ids
are pairwise distinct. -/
theorem wellFormed_run (trace : List (Env × Request)) :
    ∀ st : State, st.store.WellFormed → (run st trace).store.WellFormed := by
  induction trace with
  | nil => intro st hs; exact hs
  | cons x rest ih =>
    intro st hs
    exact ih _ (wellFormed_handle x.1 st x.2 hs)

theorem wellFormed_reachable (trace : List (Env × Request)) :
    (run State.init trace).store.WellFormed :=
  wellFormed_run trace State.init ⟨fun t ht => (by cases ht), List.nodup_nil⟩

/-! ### Listing -/

/-- What `GET /api/tasks` answers when the store works: the stored rows whose
`user_id` is the caller's id, in store order; nothing is changed. -/
theorem list_returns_owned (env : Env) (st : State) (req : Request) (u : User)
    (hu : req.user = some u) (hroute : route req.method req.path = .listTasks)
    (hok : env.storeFails = false) :
    (handle env st req).response
      = ⟨200, .json (.arr ((st.store.rows.filter (fun t => t.user_id == some u.id)).map
          Task.toJs))⟩ ∧
    (handle env st req).state = st := by
  obtain ⟨h1, h2, -⟩ := handle_of_user env st req u hu
  rw [h1, h2]
  simp [routes, hroute, getTasks, hu, hok, Store.selectByUser]

/-! ### Workspace snapshots -/

/-- No request changes the workspace files of server.js. -/
theorem workspace_routes_throw (env : Env) (st : State) (req : Request) (u : User)
    (hu : req.user = some u)
    (hroute : route req.method req.path = .saveWorkspace ∨
      ∃ taskId, route req.method req.path = .restoreWorkspace taskId) :
    (handle env st req).response = ⟨500, .text "ReferenceError: path is not defined"⟩ ∧
    (handle env st req).state = st := by
  obtain ⟨h1, h2, -⟩ := handle_of_user env st req u hu
  rw [h1, h2]
  rcases hroute with h | ⟨taskId, h⟩
  · simp only [routes, h, postWorkspace]
    exact ⟨rfl, rfl⟩
  · simp only [routes, h, getWorkspace]
    exact ⟨rfl, rfl⟩

theorem lookup_writeFile (fs : List (String × JsVal)) (f : String) (v : JsVal) :
    (writeFile fs f v).lookup f = some v := by
  induction fs with
  | nil => simp [writeFile, List.lookup]
  | cons x rest ih =>
    obtain ⟨g, w⟩ := x
    unfold writeFile
    by_cases h : g = f
    · simp [h, List.lookup]
    · have h' : (f == g) = false := by
        rw [beq_eq_false_iff_ne]
        exact fun e => h e.symm
      simp [h, List.lookup, h', ih]

theorem wireElems_strs (files : List String) :
    JsVal.wireElems (files.map JsVal.str) = files.map JsVal.str := by
  induction files with
  | nil => rfl
  | cons f rest ih =>
    show JsVal.wire (.str f) :: JsVal.wireElems (rest.map JsVal.str) = _
    rw [ih]
    rfl

/-- With `fs` and `path` bound at top level, save followed by restore gives
back the saved list of files, whatever was stored before. -/
theorem workspace_round_trip_in_scope (env₁ env₂ : Env) (st : State) (req req₂ : Request)
    (u u₂ : User) (taskId : String) (files : List String)
    (hu : req.user = some u) (hroute : route req.method req.path = .saveWorkspace)
    (hid : getProp req.body "task_id" = .str taskId)
    (hfiles : getProp req.body "open_files" = .arr (files.map JsVal.str))
    (hu₂ : req₂.user = some u₂)
    (hroute₂ : route req₂.method req₂.path = .restoreWorkspace taskId) :
    (handleIn ("fs" :: "path" :: moduleScope) env₁ st req).response.status = 201 ∧
    (handleIn ("fs" :: "path" :: moduleScope) env₂
        (handleIn ("fs" :: "path" :: moduleScope) env₁ st req).state req₂).response
      = ⟨200, .json (.obj [("open_files", .arr (files.map JsVal.str))])⟩ := by
  have hp : inScope ("fs" :: "path" :: moduleScope) "path" = true := by decide
  have hf : inScope ("fs" :: "path" :: moduleScope) "fs" = true := by decide
  obtain ⟨h1, h2, -⟩ := handleIn_of_user ("fs" :: "path" :: moduleScope) env₁ st req u hu
  obtain ⟨k1, -, -⟩ := handleIn_of_user ("fs" :: "path" :: moduleScope) env₂
    (handleIn ("fs" :: "path" :: moduleScope) env₁ st req).state req₂ u₂ hu₂
  rw [h1, k1, h2]
  simp [routes, hroute, hroute₂, postWorkspace, getWorkspace, hp, hf, hid, hfiles,
    JsVal.toStr, lookup_writeFile, JsVal.wire, JsVal.wireProps, wireElems_strs]

/-! ### The client's list -/

theorem wire_toJs (t : Task) : JsVal.wire t.toJs = t.toJs := by
  obtain ⟨id, title, status, commit_sha, user_id⟩ := t
  cases status <;> cases commit_sha <;> cases user_id <;> rfl

theorem wireElems_rows (rows : List Task) :
    JsVal.wireElems (rows.map Task.toJs) = rows.map Task.toJs := by
  induction rows with
  | nil => rfl
  | cons t rest ih =>
    show JsVal.wire t.toJs :: JsVal.wireElems (rest.map Task.toJs) = _
    rw [ih, wire_toJs]
    rfl

/-- The list the client holds after a listing: the rows, ids as numbers. -/
theorem clientTasks_rows (rows : List Task) :
    clientTasks (.json (.arr (rows.map Task.toJs))) = rows.map Task.toJs := by
  simp [clientTasks, JsVal.wire, wireElems_rows]

/-- The push handler leaves a listed task list as it is whenever the payload
carries its `id` as text, which `req.params.id` always is. -/
theorem status_push_ignored (rows : List Task) (id : String) (rest : List (String × JsVal)) :
    onTaskStatusUpdate (clientTasks (.json (.arr (rows.map Task.toJs))))
        (JsVal.wire (.obj (("id", .str id) :: rest)))
      = clientTasks (.json (.arr (rows.map Task.toJs))) := by
  rw [clientTasks_rows]
  unfold onTaskStatusUpdate
  conv_rhs => rw [← List.map_id (rows.map Task.toJs)]
  apply List.map_congr_left
  intro task htask
  obtain ⟨t, -, rfl⟩ := List.mem_map.mp htask
  have h1 : t.toJs.get "id" = .num t.id := rfl
  have h2 : (JsVal.wire (.obj (("id", .str id) :: rest))).get "id" = .str id := by
    simp [JsVal.wire, JsVal.wireProps, JsVal.get, getProp, List.lookup]
  rw [h1, h2]
  rfl

/-! ### Ownership along a run of requests with scalar titles -/

theorem nextId_insert (s s' : Store) (t c u : Option String) (id : Nat)
    (h : s.insert t c u = some (id, s')) :
    id = s.nextId ∧ s.nextId < s'.nextId ∧
    ∃ title, s'.rows = s.rows ++ [⟨s.nextId, title, some "open", c, u⟩] := by
  unfold Store.insert at h
  cases t with
  | none => cases h
  | some title =>
    simp only [Option.some.injEq, Prod.mk.injEq] at h
    obtain ⟨rfl, rfl⟩ := h
    refine ⟨rfl, ?_, title, rfl⟩
    show s.nextId < (List.map Task.id (s.rows ++ [_])).foldr max s.nextId + 1
    have : ∀ (l : List Nat) (b : Nat), b ≤ l.foldr max b := by
      intro l b
      induction l with
      | nil => exact le_refl _
      | cons x xs ih => exact le_trans ih (le_max_right _ _)
    exact Nat.lt_succ_of_le (this _ _)

theorem nextId_updateStatus (s : Store) (v : Option String) (rowid : Option Nat)
    (uid : String) : (s.updateStatus v rowid uid).nextId = s.nextId := by
  have : (s.updateStatus v rowid uid).rows.map Task.id = s.rows.map Task.id := by
    simp only [Store.updateStatus, List.map_map]
    apply List.map_congr_left
    intro t _
    simp only [Function.comp]
    split <;> rfl
  unfold Store.nextId
  rw [this]
  rfl

/-- One request keeps the owner of the rows with a given id below the next id,
and adds no row with that id. -/
theorem handle_keeps_owner (env : Env) (st : State) (req : Request) (id : Nat)
    (o : Option String) (hid : id < st.store.nextId)
    (h : ∀ t ∈ st.store.rows, t.id = id → t.user_id = o) :
    id < (handle env st req).state.store.nextId ∧
    ∀ t ∈ (handle env st req).state.store.rows, t.id = id → t.user_id = o := by
  unfold handle
  rcases handle_store moduleScope env st req with e | ⟨t, c, u, n, e⟩ | ⟨s, rowid, uid, -, e⟩
  · rw [e]
    exact ⟨hid, h⟩
  · obtain ⟨-, hlt, title, hrows⟩ := nextId_insert _ _ t c u n e
    refine ⟨lt_trans hid hlt, ?_⟩
    rw [hrows]
    intro r hr hrid
    rcases List.mem_append.mp hr with hr | hr
    · exact h r hr hrid
    · rw [List.mem_singleton] at hr
      subst hr
      simp only at hrid
      omega
  · rw [e, nextId_updateStatus]
    refine ⟨hid, ?_⟩
    intro r hr hrid
    simp only [Store.updateStatus, List.mem_map] at hr
    obtain ⟨t, ht, rfl⟩ := hr
    by_cases hc : rowid = some t.id ∧ t.user_id = some uid
    · rw [if_pos hc] at hrid ⊢
      exact h t ht hrid
    · rw [if_neg hc] at hrid ⊢
      exact h t ht hrid

theorem run_keeps_owner (trace : List (Env × Request)) :
    ∀ (st : State) (id : Nat) (o : Option String), id < st.store.nextId →
      (∀ t ∈ st.store.rows, t.id = id → t.user_id = o) →
      ∀ t ∈ (run st trace).store.rows, t.id = id → t.user_id = o := by
  induction trace with
  | nil => intro st id o _ h; exact h
  | cons x rest ih =>
    intro st id o hid h
    obtain ⟨h1, h2⟩ := handle_keeps_owner x.1 st x.2 id o hid h
    exact ih _ id o h1 h2

/-- A create with a scalar title that reports an id has stored, under that
id, a row of the caller and nothing else. -/
theorem createdBy_scalar (env : Env) (st : State) (req : Request) (p : Nat × String)
    (hs : scalarTitle req) (hp : p ∈ createdBy req (handle env st req)) :
    p.1 < (handle env st req).state.store.nextId ∧
    ∀ t ∈ (handle env st req).state.store.rows, t.id = p.1 → t.user_id = some p.2 := by
  unfold createdBy at hp
  cases hr : route req.method req.path with
  | createTask =>
    cases hu : req.user with
    | none => simp [hr, hu] at hp
    | some u =>
      obtain ⟨h1, h2, -⟩ := handle_of_user env st req u hu
      have hroutes : routes moduleScope env st req = postTasks env st req := by
        simp [routes, hr]
      rw [hr, hu, h1, hroutes] at hp
      rw [h2, hroutes]
      simp only [postTasks, hu, runInsert_positional _ _ _ _ hs.1 hs.2] at hp ⊢
      cases hf : env.storeFails with
      | true => simp [hf, reportedId, errorBody, JsVal.get, getProp, List.lookup] at hp
      | false =>
        simp only [hf, Bool.false_eq_true, if_false] at hp ⊢
        rcases hi : st.store.insert (bindText (getProp req.body "title"))
          (bindText (getProp req.body "commit_sha")) (some u.id) with _ | ⟨n, s'⟩
        · rw [hi] at hp
          simp [reportedId, errorBody, JsVal.get, getProp, List.lookup] at hp
        · obtain ⟨hn, hlt, title, hrows⟩ := nextId_insert _ _ _ _ _ n hi
          rw [hi] at hp
          simp [reportedId, JsVal.get, getProp, List.lookup] at hp
          subst hp
          subst hn
          refine ⟨hlt, ?_⟩
          show ∀ t ∈ s'.rows, _
          rw [hrows]
          intro r hrm hrid
          rcases List.mem_append.mp hrm with hrm | hrm
          · have := nextId_gt st.store r hrm
            simp only at hrid
            omega
          · rw [List.mem_singleton] at hrm
            subst hrm
            rfl
  | _ => simp [hr] at hp

/-- Along a run whose creates all carry a scalar title, a task stays owned by
the identity whose create reported its id. -/
theorem creator_kept (trace : List (Env × Request)) :
    ∀ st : State, (∀ x ∈ trace, scalarTitle x.2) →
      ∀ p ∈ created st trace, ∀ t ∈ (run st trace).store.rows,
        t.id = p.1 → t.user_id = some p.2 := by
  induction trace with
  | nil => intro st _ p hp; cases hp
  | cons x rest ih =>
    intro st hs p hp
    obtain ⟨env, req⟩ := x
    simp only [created, List.mem_append] at hp
    rcases hp with hp | hp
    · obtain ⟨h1, h2⟩ := createdBy_scalar env st req p (hs _ (List.mem_cons_self _ _)) hp
      exact run_keeps_owner rest _ p.1 (some p.2) h1 h2
    · exact ih _ (fun y hy => hs y (List.mem_cons_of_mem _ hy)) p hp

/-- Hence such a task is never in the listing of another identity. -/
theorem created_not_listed_to_other (trace : List (Env × Request)) (st : State)
    (hs : ∀ x ∈ trace, scalarTitle x.2) (p : Nat × String) (hp : p ∈ created st trace)
    (b : String) (hb : b ≠ p.2) :
    ∀ t ∈ (run st trace).store.selectByUser b, t.id ≠ p.1 := by
  intro t ht hid
  have hmem := List.mem_of_mem_filter ht
  have hown := creator_kept trace st hs p hp t hmem hid
  have hsel : (t.user_id == some b) = true := (List.mem_filter.mp ht).2
  rw [hown] at hsel
  simp only [beq_iff_eq, Option.some.injEq] at hsel
  exact hb hsel.symm

/-! ## The claims -/

/-- C1 (amended): a request that reaches the session validation middleware
with a path that does not start with `/auth` and is not `/`, and with no
identity attached, is answered 401 with `{error: 'Unauthorized'}`; the state
is unchanged and the step has no effect at all: no handler runs, the store is
neither read nor written, nothing is broadcast. -/
theorem handle_unauthorized (env : Env) (st : State) (req : Request)
    (hauth : startsWith req.path "/auth" = false) (hroot : req.path ≠ "/")
    (huser : req.user = none) :
    handle env st req = ⟨⟨401, errorBody "Unauthorized"⟩, st, []⟩ := by
  simp [handle, handleIn, hauth, hroot, huser]

/-- C1, the amended claim at an unauthenticated `GET /api/tasks`. -/
theorem handle_unauthorized_witness :
    handle sampleEnv State.init ⟨.GET, "/api/tasks", none, []⟩
      = ⟨⟨401, errorBody "Unauthorized"⟩, State.init, []⟩ :=
  handle_unauthorized sampleEnv State.init ⟨.GET, "/api/tasks", none, []⟩
    (by decide) (by decide) rfl

/-- C1 as stated fails at `GET /authx` without an identity: the path is neither
`/` nor one of the four identity-bridge routes, yet it starts with `/auth`, so
the middleware passes it on and, no route matching, Express answers 404. -/
theorem auth_path_not_gated :
    ("/authx" ≠ "/" ∧ "/authx" ≠ "/auth/github" ∧ "/authx" ≠ "/auth/github/callback" ∧
      "/authx" ≠ "/auth/user" ∧ "/authx" ≠ "/auth/logout") ∧
    (handle sampleEnv State.init ⟨.GET, "/authx", none, []⟩).response
      = ⟨404, .text "Cannot GET /authx"⟩ ∧
    (handle sampleEnv State.init ⟨.GET, "/authx", none, []⟩).response.status ≠ 401 :=
  ⟨by decide, rfl, by decide⟩

/-- C2 at its failing input: Alice posts a task whose title is the JSON array
`["x", "y", "B"]`. The create answers 201 with `user_id: "A"`, but the array
was taken as the whole parameter list, so the stored row has `user_id` B: Bob's
listing returns it and Alice's own listing does not. -/
theorem array_title_sets_owner :
    alice.id ≠ bob.id ∧
    (handle sampleEnv State.init aliceCreatesArrayTitle).response
      = ⟨201, .json (.obj [("id", .num 1), ("title", .arr [.str "x", .str "y", .str "B"]),
          ("commit_sha", .undefined), ("status", .str "open"), ("user_id", .str "A")])⟩ ∧
    (handle sampleEnv (handle sampleEnv State.init aliceCreatesArrayTitle).state
        bobLists).response
      = ⟨200, .json (.arr [.obj [("id", .num 1), ("title", .str "x"), ("status", .str "open"),
          ("commit_sha", .str "y"), ("user_id", .str "B")]])⟩ ∧
    (handle sampleEnv (handle sampleEnv State.init aliceCreatesArrayTitle).state
        aliceLists).response = ⟨200, .json (.arr [])⟩ :=
  ⟨by decide, rfl, rfl, rfl⟩

/-- C3: a status update by caller `u` for `:id` keeps the number of rows and
maps every row to a row with the same id, title, commit and owner; a row
whose owner is not `u`, or whose id is not the one `:id` denotes, is left
exactly as it was. -/
theorem status_update_frame (env : Env) (st : State) (req : Request) (u : User) (id : String)
    (hu : req.user = some u) (hroute : route req.method req.path = .updateStatus id) :
    (handle env st req).state.store.rows.length = st.store.rows.length ∧
    ∃ f : Task → Task,
      (handle env st req).state.store.rows = st.store.rows.map f ∧
      ∀ t : Task, (f t).id = t.id ∧ (f t).title = t.title ∧
        (f t).commit_sha = t.commit_sha ∧ (f t).user_id = t.user_id ∧
        ((t.user_id ≠ some u.id ∨ env.rowidOfText id ≠ some t.id) → f t = t) := by
  obtain ⟨-, h2, -⟩ := handle_of_user env st req u hu
  rw [h2]
  simp only [routes, hroute, patchStatus, hu]
  split
  · exact ⟨rfl, fun t => t, (List.map_id _).symm, fun t => ⟨rfl, rfl, rfl, rfl, fun _ => rfl⟩⟩
  · split
    · exact ⟨rfl, fun t => t, (List.map_id _).symm, fun t => ⟨rfl, rfl, rfl, rfl, fun _ => rfl⟩⟩
    · refine ⟨List.length_map _ _, _, rfl, fun t => ?_⟩
      by_cases h : env.rowidOfText id = some t.id ∧ t.user_id = some u.id
      · rw [if_pos h]
        refine ⟨rfl, rfl, rfl, rfl, fun h' => ?_⟩
        rcases h' with h' | h'
        · exact absurd h.2 h'
        · exact absurd h.1 h'
      · rw [if_neg h]
        exact ⟨rfl, rfl, rfl, rfl, fun _ => rfl⟩

/-- C3 at Alice closing task 1 in a store that also holds a task of Bob. -/
theorem status_update_frame_witness :
    (handle sampleEnv twoTasks aliceCloses).state.store.rows.length = twoTasks.store.rows.length ∧
    ∃ f : Task → Task,
      (handle sampleEnv twoTasks aliceCloses).state.store.rows = twoTasks.store.rows.map f ∧
      ∀ t : Task, (f t).id = t.id ∧ (f t).title = t.title ∧
        (f t).commit_sha = t.commit_sha ∧ (f t).user_id = t.user_id ∧
        ((t.user_id ≠ some alice.id ∨ sampleEnv.rowidOfText "1" ≠ some t.id) → f t = t) :=
  status_update_frame sampleEnv twoTasks aliceCloses alice "1" rfl (by decide)

/-- C4: a status update whose `status` is none of `open`, `in-progress`, `closed`
(an absent one included) is answered 400 with `{error: 'Invalid status'}`,
leaves the state as it was and broadcasts nothing. -/
theorem invalid_status_rejected (env : Env) (st : State) (req : Request) (u : User)
    (id : String) (hu : req.user = some u)
    (hroute : route req.method req.path = .updateStatus id)
    (hopen : getProp req.body "status" ≠ .str "open")
    (hprog : getProp req.body "status" ≠ .str "in-progress")
    (hclosed : getProp req.body "status" ≠ .str "closed") :
    (handle env st req).response = ⟨400, errorBody "Invalid status"⟩ ∧
    (handle env st req).state = st ∧
    emitted (handle env st req).effects = [] := by
  have hinc : JsVal.includes validStatuses (getProp req.body "status") = false := by
    rw [Bool.eq_false_iff, Ne, includes_validStatuses]
    simp [hopen, hprog, hclosed]
  obtain ⟨h1, h2, h3⟩ := handle_of_user env st req u hu
  rw [h1, h2, h3]
  simp [routes, hroute, patchStatus, hu, hinc, emitted]

/-- C4 at the status `done`. -/
theorem invalid_status_rejected_witness :
    (handle sampleEnv twoTasks
        ⟨.PATCH, "/api/tasks/1/status", some alice, [("status", .str "done")]⟩).response
      = ⟨400, errorBody "Invalid status"⟩ ∧
    (handle sampleEnv twoTasks
        ⟨.PATCH, "/api/tasks/1/status", some alice, [("status", .str "done")]⟩).state
      = twoTasks ∧
    emitted (handle sampleEnv twoTasks
        ⟨.PATCH, "/api/tasks/1/status", some alice, [("status", .str "done")]⟩).effects = [] :=
  invalid_status_rejected sampleEnv twoTasks
    ⟨.PATCH, "/api/tasks/1/status", some alice, [("status", .str "done")]⟩ alice "1" rfl
    (by decide)
    (fun h => absurd (JsVal.str.inj h) (by decide))
    (fun h => absurd (JsVal.str.inj h) (by decide))
    (fun h => absurd (JsVal.str.inj h) (by decide))

/-- C5 (amended): a create whose title is absent or `null` is answered 500 with
`{error: 'Failed to create task'}` (the NOT NULL constraint of the table),
stores nothing and broadcasts nothing. -/
theorem create_without_title (env : Env) (st : State) (req : Request) (u : User)
    (hu : req.user = some u) (hroute : route req.method req.path = .createTask)
    (htitle : getProp req.body "title" = .undefined ∨ getProp req.body "title" = .null) :
    (handle env st req).response = ⟨500, errorBody "Failed to create task"⟩ ∧
    (handle env st req).state = st ∧
    emitted (handle env st req).effects = [] := by
  obtain ⟨h1, h2, h3⟩ := handle_of_user env st req u hu
  rw [h1, h2, h3]
  simp only [routes, hroute, postTasks, hu, runInsert_no_title _ _ _ _ htitle]
  cases env.storeFails <;> simp [emitted]

/-- C5, the amended claim at a create with an empty body. -/
theorem create_without_title_witness :
    (handle sampleEnv twoTasks ⟨.POST, "/api/tasks", some alice, []⟩).response
      = ⟨500, errorBody "Failed to create task"⟩ ∧
    (handle sampleEnv twoTasks ⟨.POST, "/api/tasks", some alice, []⟩).state = twoTasks ∧
    emitted (handle sampleEnv twoTasks ⟨.POST, "/api/tasks", some alice, []⟩).effects = [] :=
  create_without_title sampleEnv twoTasks ⟨.POST, "/api/tasks", some alice, []⟩ alice rfl
    (by decide) (Or.inl rfl)

/-- C5 as stated fails: a create with the empty string as title is answered 201,
stores the task and broadcasts one event; and a create without a title is
answered 500, not 400. -/
theorem empty_title_accepted :
    (handle sampleEnv State.init
        ⟨.POST, "/api/tasks", some alice, [("title", .str "")]⟩).response.status = 201 ∧
    (handle sampleEnv State.init
        ⟨.POST, "/api/tasks", some alice, [("title", .str "")]⟩).state.store.rows
      = [⟨1, "", some "open", none, some "A"⟩] ∧
    (emitted (handle sampleEnv State.init
        ⟨.POST, "/api/tasks", some alice, [("title", .str "")]⟩).effects).length = 1 ∧
    (handle sampleEnv State.init
        ⟨.POST, "/api/tasks", some alice, []⟩).response.status = 500 :=
  ⟨by decide, by decide, by decide, by decide⟩

/-- C6 (amended): when the store works, a create with a string title answers
201 and reports the next id, and the caller's listing afterwards returns the
tasks the caller had before, unchanged and in order, followed by the new
task, which has the title, status `open`, the caller as owner and the
reported id. So the listing holds one more task with that title than before:
exactly one when the caller had none with that title, and then that one is
the new task; and in every case exactly one task with the reported id. -/
theorem create_then_list (env₁ env₂ : Env) (st : State) (req req₂ : Request) (u : User)
    (title : String)
    (hu : req.user = some u) (hroute : route req.method req.path = .createTask)
    (htitle : getProp req.body "title" = .str title)
    (hu₂ : req₂.user = some u) (hroute₂ : route req₂.method req₂.path = .listTasks)
    (hok₁ : env₁.storeFails = false) (hok₂ : env₂.storeFails = false) :
    (handle env₁ st req).response.status = 201 ∧
    (∃ p, (handle env₁ st req).response.body = .json p ∧
      p.get "id" = .num st.store.nextId) ∧
    (handle env₂ (handle env₁ st req).state req₂).response
      = ⟨200, .json (.arr (((handle env₁ st req).state.store.selectByUser u.id).map
          Task.toJs))⟩ ∧
    (handle env₁ st req).state.store.selectByUser u.id
      = st.store.selectByUser u.id ++
          [⟨st.store.nextId, title, some "open", bindText (getProp req.body "commit_sha"),
            some u.id⟩] ∧
    ((handle env₁ st req).state.store.selectByUser u.id).countP (fun t => t.title = title)
      = (st.store.selectByUser u.id).countP (fun t => t.title = title) + 1 ∧
    ((st.store.selectByUser u.id).countP (fun t => t.title = title) = 0 →
      ((handle env₁ st req).state.store.selectByUser u.id).countP
          (fun t => t.title = title) = 1 ∧
      ∀ t ∈ (handle env₁ st req).state.store.selectByUser u.id, t.title = title →
        t.id = st.store.nextId ∧ t.status = some "open" ∧ t.user_id = some u.id) ∧
    ((handle env₁ st req).state.store.selectByUser u.id).countP
      (fun t => t.id = st.store.nextId) = 1 ∧
    ∀ t ∈ (handle env₁ st req).state.store.selectByUser u.id, t.id = st.store.nextId →
      t.title = title ∧ t.status = some "open" ∧ t.user_id = some u.id := by
  obtain ⟨h1, h2, -⟩ := handle_of_user env₁ st req u hu
  obtain ⟨k1, -, -⟩ := handle_of_user env₂ (handle env₁ st req).state req₂ u hu₂
  have hout : routes moduleScope env₁ st req =
      ⟨⟨201, .json (.obj [("id", .num st.store.nextId), ("title", .str title),
          ("commit_sha", getProp req.body "commit_sha"), ("status", .str "open"),
          ("user_id", .str u.id)])⟩,
        { st with store := ⟨st.store.rows ++ [⟨st.store.nextId, title, some "open",
            bindText (getProp req.body "commit_sha"), some u.id⟩], st.store.nextId⟩ },
        [.console "Creating task:",
         .sql "INSERT INTO tasks (title, commit_sha, user_id) VALUES (?, ?, ?)",
         .console "Task created:",
         .emit "task_update" (.obj [("id", .num st.store.nextId), ("title", .str title),
          ("commit_sha", getProp req.body "commit_sha"), ("status", .str "open"),
          ("user_id", .str u.id)])]⟩ := by
    simp [routes, hroute, postTasks, hu, hok₁, htitle, runInsert_str, Store.insert]
  have hlist : (routes moduleScope env₁ st req).state.store.selectByUser u.id
      = st.store.selectByUser u.id ++
          [⟨st.store.nextId, title, some "open", bindText (getProp req.body "commit_sha"),
            some u.id⟩] := by
    rw [hout]
    simp [Store.selectByUser, List.filter_append]
  have hold : ∀ t ∈ st.store.selectByUser u.id, t.id ≠ st.store.nextId := by
    intro t ht
    have := nextId_gt st.store t (List.mem_of_mem_filter ht)
    omega
  have hresp : (routes moduleScope env₁ st req).response =
      ⟨201, .json (.obj [("id", .num st.store.nextId), ("title", .str title),
          ("commit_sha", getProp req.body "commit_sha"), ("status", .str "open"),
          ("user_id", .str u.id)])⟩ := by
    rw [hout]
  rw [h1, k1, h2, hresp]
  generalize (routes moduleScope env₁ st req).state = s₁ at hlist ⊢
  rw [hlist]
  refine ⟨rfl, ⟨_, rfl, rfl⟩, ?_, rfl, ?_, ?_, ?_, ?_⟩
  · simp only [routes, hroute₂, getTasks, hu₂, hok₂]
    rw [hlist]
    rfl
  · simp [List.countP_append]
  · intro hnone
    refine ⟨by simp [List.countP_append, hnone], ?_⟩
    intro t ht htitle'
    rcases List.mem_append.mp ht with ht | ht
    · rw [List.countP_eq_zero] at hnone
      exact absurd (by simpa using htitle') (hnone t ht)
    · rw [List.mem_singleton] at ht
      subst ht
      exact ⟨rfl, rfl, rfl⟩
  · rw [List.countP_append]
    have : List.countP (fun t => decide (t.id = st.store.nextId))
        (st.store.selectByUser u.id) = 0 := by
      rw [List.countP_eq_zero]
      intro t ht
      simpa using hold t ht
    rw [this]
    simp
  · intro t ht hid
    rcases List.mem_append.mp ht with ht | ht
    · exact absurd hid (hold t ht)
    · rw [List.mem_singleton] at ht
      subst ht
      exact ⟨rfl, rfl, rfl⟩

/-- C6, the amended claim at Alice creating "Add tests", a title she does not
have yet, beside her task "Fix bug", and listing: the listing holds her
earlier task and the new one, the only one titled "Add tests". -/
theorem create_then_list_witness :
    (handle sampleEnv twoTasks aliceCreatesNew).response.status = 201 ∧
    (handle sampleEnv (handle sampleEnv twoTasks aliceCreatesNew).state aliceLists).response
      = ⟨200, .json (.arr [
          .obj [("id", .num 1), ("title", .str "Fix bug"), ("status", .str "open"),
                ("commit_sha", .str "abc123"), ("user_id", .str "A")],
          .obj [("id", .num 3), ("title", .str "Add tests"), ("status", .str "open"),
                ("commit_sha", .null), ("user_id", .str "A")]])⟩ ∧
    (handle sampleEnv twoTasks aliceCreatesNew).state.store.selectByUser alice.id
      = twoTasks.store.selectByUser alice.id ++
          [⟨3, "Add tests", some "open", none, some "A"⟩] ∧
    ((handle sampleEnv twoTasks aliceCreatesNew).state.store.selectByUser alice.id).countP
        (fun t => t.title = "Add tests") = 1 ∧
    ∀ t ∈ (handle sampleEnv twoTasks aliceCreatesNew).state.store.selectByUser alice.id,
      t.title = "Add tests" →
      t.id = twoTasks.store.nextId ∧ t.status = some "open" ∧ t.user_id = some alice.id :=
  have h := create_then_list sampleEnv sampleEnv twoTasks aliceCreatesNew aliceLists alice
    "Add tests" rfl (by decide) rfl rfl (by decide) rfl rfl
  ⟨h.1, h.2.2.1, h.2.2.2.1, (h.2.2.2.2.2.1 (by decide)).1, (h.2.2.2.2.2.1 (by decide)).2⟩

/-- C6 as stated fails when the caller already has a task with the same title:
after the create the listing holds two tasks titled "Fix bug". -/
theorem duplicate_title_listed_twice :
    (handle sampleEnv twoTasks aliceCreates).response.status = 201 ∧
    (handle sampleEnv (handle sampleEnv twoTasks aliceCreates).state aliceLists).response
      = ⟨200, .json (.arr [
          .obj [("id", .num 1), ("title", .str "Fix bug"), ("status", .str "open"),
                ("commit_sha", .str "abc123"), ("user_id", .str "A")],
          .obj [("id", .num 3), ("title", .str "Fix bug"), ("status", .str "open"),
                ("commit_sha", .str "abc123"), ("user_id", .str "A")]])⟩ ∧
    ((handle sampleEnv twoTasks aliceCreates).state.store.selectByUser alice.id).countP
      (fun t => t.title = "Fix bug") = 2 :=
  ⟨by decide, rfl, by decide⟩

/-- C7: a create answered 201 broadcasts exactly one `task_update`, a status
update answered 200 exactly one `task_status_update`, each with the response
body as payload; a request answered 400, 401 or 500 broadcasts nothing. -/
theorem broadcast_once (env : Env) (st : State) (req : Request) :
    (route req.method req.path = .createTask →
      (handle env st req).response.status = 201 →
      ∃ p, (handle env st req).response.body = .json p ∧
        emitted (handle env st req).effects = [("task_update", p)]) ∧
    (∀ id, route req.method req.path = .updateStatus id →
      (handle env st req).response.status = 200 →
      ∃ p, (handle env st req).response.body = .json p ∧
        emitted (handle env st req).effects = [("task_status_update", p)]) ∧
    ((handle env st req).response.status = 400 ∨
      (handle env st req).response.status = 401 ∨
      (handle env st req).response.status = 500 →
      emitted (handle env st req).effects = []) := by
  unfold handle
  rcases handle_cases moduleScope env st req with h | ⟨h1, -, h3⟩
  · rw [h]
    simp [emitted]
  · rw [h1, h3]
    exact routes_broadcast moduleScope env st req

/-- C7 at the create of the spec's scenario. -/
theorem broadcast_once_witness :
    ∃ p, (handle sampleEnv State.init aliceCreates).response.body = .json p ∧
      emitted (handle sampleEnv State.init aliceCreates).effects = [("task_update", p)] :=
  (broadcast_once sampleEnv State.init aliceCreates).1 (by decide) (by decide)

/-- C8 at its failing input: an authenticated save of a snapshot is answered 500
(`path` is not bound in server.js), nothing is stored, and the restore that
follows is answered 500 as well. -/
theorem workspace_save_fails :
    (handle sampleEnv State.init aliceSaves).response
      = ⟨500, .text "ReferenceError: path is not defined"⟩ ∧
    (handle sampleEnv State.init aliceSaves).state = State.init ∧
    (handle sampleEnv (handle sampleEnv State.init aliceSaves).state aliceRestores).response
      = ⟨500, .text "ReferenceError: path is not defined"⟩ :=
  ⟨rfl, rfl, rfl⟩

/-- C9 at its failing input: one create by Alice, whose title is the array
`["x", "y", "B"]`, leads from the empty store to a row whose `user_id` is B. -/
theorem reachable_row_of_other_owner :
    aliceCreatesArrayTitle.user = some alice ∧
    (run State.init [(sampleEnv, aliceCreatesArrayTitle)]).store.rows
      = [⟨1, "x", some "open", some "y", some "B"⟩] ∧
    some alice.id ≠ (some "B" : Option String) :=
  ⟨rfl, by decide, by decide⟩

/-- C10 at its failing input: the client lists task 1 (`id` the number 1), the
server answers the close with 200, stores `closed` and broadcasts
`{id: "1", status: "closed"}` (`id` the text of the URL segment); the push
handler compares the two ids with `===` and leaves the task `open`. -/
theorem status_push_lost :
    clientTasks (handle sampleEnv twoTasks aliceLists).response.body
      = [.obj [("id", .num 1), ("title", .str "Fix bug"), ("status", .str "open"),
               ("commit_sha", .str "abc123"), ("user_id", .str "A")]] ∧
    (handle sampleEnv twoTasks aliceCloses).response
      = ⟨200, .json (.obj [("id", .str "1"), ("status", .str "closed"),
          ("title", .undefined), ("commit_sha", .undefined)])⟩ ∧
    (handle sampleEnv twoTasks aliceCloses).state.store.rows
      = [⟨1, "Fix bug", some "closed", some "abc123", some "A"⟩,
         ⟨2, "Write docs", some "open", none, some "B"⟩] ∧
    emitted (handle sampleEnv twoTasks aliceCloses).effects
      = [("task_status_update", .obj [("id", .str "1"), ("status", .str "closed"),
          ("title", .undefined), ("commit_sha", .undefined)])] ∧
    onTaskStatusUpdate (clientTasks (handle sampleEnv twoTasks aliceLists).response.body)
        (JsVal.wire (.obj [("id", .str "1"), ("status", .str "closed"),
          ("title", .undefined), ("commit_sha", .undefined)]))
      = [.obj [("id", .num 1), ("title", .str "Fix bug"), ("status", .str "open"),
               ("commit_sha", .str "abc123"), ("user_id", .str "A")]] :=
  ⟨rfl, rfl, by decide, rfl, rfl⟩

end DevTaskFlow
